import Mathlib

/-!
Shallow embedding of the text-extraction pipeline of the pdf-strings crate
(src/src/fonts.rs, src/src/processor.rs, src/src/output.rs, src/src/utils.rs,
src/src/types.rs, src/src/extract.rs), together with theorems settling the
frozen claims about its natural-language specification.

Modelling conventions:
* Rust `f32` coordinate arithmetic is embedded as `ℚ`.  The only operation
  that leaves `ℚ` is `f32::sqrt`, used by the span assembler to compute the
  transformed font size; it is threaded through the model as an explicit
  parameter (the source value is nonnegative whenever it is not NaN, which
  the corresponding theorems record as a hypothesis `0 ≤ tfs`).
* Rust `HashMap` is embedded as an association list.  `insert` prepends, and
  lookup returns the first hit, so the latest insertion wins, exactly as for
  `HashMap::insert` / `HashMap::get`.  Where the source *iterates* a
  `HashMap` (the cluster map of `detect_right_aligned_columns`), the
  iteration order is an explicit parameter of the model, since Rust
  randomizes it per process.
* Fallible Rust code (panics, `?`) is embedded with `Option` / `Except`.
-/

namespace PdfStrings

/-! ## CID font model (src/src/fonts.rs)

Maps `to_unicode`, `fallback_unicode`, `width_fallback` are
`HashMap<CharCode, String>` in the source; char codes are `u32`, embedded as
`Nat`.  Rust strings are embedded as `List Char` (a `String` as its
character sequence); `'\0'` is `Char.ofNat 0`. -/

/-- A code space range of a byte-mapping CMap (adobe_cmap_parser::CodeRange). -/
structure CodeRange where
  width : Nat
  start : Nat
  stop : Nat
  deriving DecidableEq, Repr

/-- A CID range of a byte-mapping CMap (adobe_cmap_parser::CIDRange). -/
structure CIDRange where
  srcCodeLo : Nat
  srcCodeHi : Nat
  dstCIDLo : Nat
  deriving DecidableEq, Repr

/-- A byte mapping (adobe_cmap_parser::ByteMapping): code space ranges plus
CID ranges. -/
structure ByteMapping where
  codespace : List CodeRange
  cid : List CIDRange
  deriving DecidableEq, Repr

/-- The `PdfCIDFont` fields that `decode_char`, `next_char` and `get_width`
consult.  Maps are association lists standing for the source `HashMap`s. -/
structure PdfCIDFont where
  widths : List (Nat × ℚ)
  toUnicode : Option (List (Nat × List Char))
  fallbackUnicode : Option (List (Nat × List Char))
  widthFallback : Option (List (Nat × List Char))
  encoding : ByteMapping
  defaultWidth : ℚ

/-- The NUL character that `decode_char` tests for with `s.contains('\0')`. -/
def nulChar : Char := Char.ofNat 0

/-- Whether a ToUnicode result is usable:
`!s.is_empty() && !s.contains('\0')` in `decode_char`. -/
def usableUnicode (s : List Char) : Bool :=
  !s.isEmpty && !s.contains nulChar

/-- `PdfCIDFont::decode_char` (src/src/fonts.rs:1189-1221): consult
ToUnicode; a non-empty NUL-free hit is returned; otherwise fall through to
the embedded-font fallback map, then the width-based fallback map, then
return the empty string. -/
def PdfCIDFont.decodeChar (f : PdfCIDFont) (c : Nat) : List Char :=
  let fallbackPart : List Char :=
    match f.fallbackUnicode.bind (fun m => m.lookup c) with
    | some s => s
    | none =>
      match f.widthFallback.bind (fun m => m.lookup c) with
      | some s => s
      | none => []
  match f.toUnicode.bind (fun m => m.lookup c) with
  | some s => if usableUnicode s then s else fallbackPart
  | none => fallbackPart

/-- The fallback chain of `decode_char` as the specification words it:
embedded-font fallback map first, then width-based fallback map, then the
empty string. -/
def PdfCIDFont.specFallbackChain (f : PdfCIDFont) (c : Nat) : List Char :=
  match f.fallbackUnicode.bind (fun m => m.lookup c) with
  | some s => s
  | none =>
    match f.widthFallback.bind (fun m => m.lookup c) with
    | some s => s
    | none => []

/-! ## CID `get_width` and the `W` array parser (src/src/fonts.rs:1114-1166) -/

/-- An atom inside a `[w1 w2 ...]` widths sub-array. -/
inductive WAtom where
  | int (i : Int)
  | real (q : ℚ)
  | other
  deriving DecidableEq, Repr

/-- The subset of lopdf `Object` shapes that the `W` parser distinguishes:
numbers (Integer / Real, both coerced by `as_num`), arrays, and anything
else. -/
inductive WObj where
  | int (i : Int)
  | real (q : ℚ)
  | array (l : List WAtom)
  | other
  deriving DecidableEq, Repr

/-- `Object::as_i64`: `Some` for integers, panic (`None`) otherwise. -/
def WObj.asI64 : WObj → Option Int
  | .int i => some i
  | _ => none

/-- `as_num` (src/src/utils.rs): integers and reals coerce to float, anything
else panics. -/
def WObj.asNum : WObj → Option ℚ
  | .int i => some (i : ℚ)
  | .real q => some q
  | _ => none

/-- `as_num` on a sub-array atom. -/
def WAtom.asNum : WAtom → Option ℚ
  | .int i => some (i : ℚ)
  | .real q => some q
  | _ => none

/-- `id as u32` / `(cid + j) as CharCode`: an `i64` → `u32` wrapping cast. -/
def asU32 (i : Int) : Nat := (i % (2 ^ 32 : Int)).toNat

/-- The `W`-array `while` loop of `PdfCIDFont::new`
(src/src/fonts.rs:1117-1140).  The source indexes `w[i + 1]` before testing
it, so a trailing single element panics (`none`).  When `w[i + 1]` is an
array, consecutive CIDs starting at `as_i64(w[i])` receive the listed
widths and `i` advances by 2.  Otherwise the source reads `c_first`,
`c_last` and `c_width` *all from `w[i]`* and iterates the half-open range
`c_first..c_last`, then advances `i` by 3 (so `w[i + 2]` is skipped without
ever being read).  `HashMap::insert` lets later inserts shadow earlier
ones; under a first-hit-lookup association list the chronologically later
inserts must come first, so each step places the recursed tail (the later
steps) before its own entries reversed (the later indices first). -/
def parseW : List WObj → Option (List (Nat × ℚ))
  | [] => some []
  | [_] => none
  | a :: b :: rest =>
    match b with
    | .array wa => do
      let cid ← a.asI64
      let pairs ← wa.enum.mapM
        (fun je => (je.2.asNum).map (fun q => (asU32 (cid + (je.1 : Int)), q)))
      let tail ← parseW rest
      return tail ++ pairs.reverse
    | _ => do
      let cFirst ← a.asI64
      let cLast ← a.asI64
      let cWidth ← a.asNum
      let entries := (List.range (cLast - cFirst).toNat).map
        (fun k => (asU32 (cFirst + (k : Int)), cWidth))
      -- `i += 3`: the third element of the step is skipped, never read.
      let tail ← match rest with
        | [] => some []
        | _ :: rest2 => parseW rest2
      return tail ++ entries.reverse

/-- `DW` handling of `PdfCIDFont::new`: `get::<Option<i64>>(.., b"DW").unwrap_or(1000)`. -/
def defaultWidthOf (dw : Option Int) : ℚ := ((dw.getD 1000 : Int) : ℚ)

/-- `PdfCIDFont::get_width`: recorded width if present, otherwise the default
width. -/
def getWidth (widths : List (Nat × ℚ)) (dw : ℚ) (id : Nat) : ℚ :=
  match widths.lookup id with
  | some w => w
  | none => dw

/-! ## Claims C1 and C2 -/

/-- The ToUnicode lookup `self.to_unicode.as_ref().and_then(|x| x.get(&char))`. -/
def PdfCIDFont.tuGet (f : PdfCIDFont) (c : Nat) : Option (List Char) :=
  f.toUnicode.bind (fun m => m.lookup c)

/-- The embedded-font fallback lookup of `decode_char`. -/
def PdfCIDFont.fbGet (f : PdfCIDFont) (c : Nat) : Option (List Char) :=
  f.fallbackUnicode.bind (fun m => m.lookup c)

/-- The width-based fallback lookup of `decode_char`. -/
def PdfCIDFont.wfGet (f : PdfCIDFont) (c : Nat) : Option (List Char) :=
  f.widthFallback.bind (fun m => m.lookup c)

/-- C1: for every CID font and character code, `decode_char` returns the
ToUnicode string exactly when it is non-empty and NUL-free; an empty or
NUL-containing ToUnicode entry, or a missing one, sends the lookup to the
fallback chain (embedded-font map first, then width-based map), and the
chain yields the empty string when neither fallback has an entry. -/
theorem cid_decode_char_cascade (f : PdfCIDFont) (c : Nat) :
    (∀ s, f.tuGet c = some s → s ≠ [] → ¬ (s.contains nulChar = true) →
      f.decodeChar c = s) ∧
    (∀ s, f.tuGet c = some s → (s = [] ∨ s.contains nulChar = true) →
      f.decodeChar c = f.specFallbackChain c) ∧
    (f.tuGet c = none → f.decodeChar c = f.specFallbackChain c) ∧
    (f.fbGet c = none → f.wfGet c = none → f.specFallbackChain c = []) := by
  refine ⟨?_, ?_, ?_, ?_⟩
  · intro s hs hne hnul
    unfold PdfCIDFont.decodeChar
    rw [show f.toUnicode.bind (fun m => m.lookup c) = some s from hs]
    have hempty : s.isEmpty = false := by
      cases s with
      | nil => exact absurd rfl hne
      | cons h t => rfl
    have hcont : s.contains nulChar = false := by
      cases h : s.contains nulChar
      · rfl
      · exact absurd h hnul
    have hu : usableUnicode s = true := by
      simp only [usableUnicode, hempty, hcont, Bool.not_false, Bool.and_self]
    simp [hu]
  · intro s hs hbad
    unfold PdfCIDFont.decodeChar PdfCIDFont.specFallbackChain
    rw [show f.toUnicode.bind (fun m => m.lookup c) = some s from hs]
    have hu : usableUnicode s = false := by
      rcases hbad with h | h
      · subst h; rfl
      · simp only [usableUnicode, h, Bool.not_true, Bool.and_false]
    simp [hu]
  · intro hnone
    unfold PdfCIDFont.decodeChar PdfCIDFont.specFallbackChain
    rw [show f.toUnicode.bind (fun m => m.lookup c) = none from hnone]
  · intro hfb hwf
    unfold PdfCIDFont.specFallbackChain
    rw [show f.fallbackUnicode.bind (fun m => m.lookup c) = none from hfb,
      show f.widthFallback.bind (fun m => m.lookup c) = none from hwf]

/-- A concrete CID font exercising every branch of the `decode_char`
cascade: code 1 has a usable ToUnicode entry, code 2 a NUL entry shadowing
an embedded-font fallback, code 3 an empty entry shadowing a width-based
fallback, and code 9 has no entry anywhere. -/
def exFontA : PdfCIDFont :=
  { widths := []
    toUnicode := some [(1, ['A']), (2, [nulChar]), (3, [])]
    fallbackUnicode := some [(2, ['B'])]
    widthFallback := some [(3, ['C'])]
    encoding := { codespace := [], cid := [] }
    defaultWidth := 1000 }

/-- Witness for C1 at `exFontA`. -/
theorem cid_decode_char_cascade_witness :
    exFontA.decodeChar 1 = ['A'] ∧
    exFontA.decodeChar 2 = exFontA.specFallbackChain 2 ∧
    exFontA.decodeChar 9 = exFontA.specFallbackChain 9 ∧
    exFontA.specFallbackChain 9 = [] :=
  ⟨(cid_decode_char_cascade exFontA 1).1 ['A'] (by rfl) (by decide) (by decide),
   (cid_decode_char_cascade exFontA 2).2.1 [nulChar] (by rfl)
     (Or.inr (by decide)),
   (cid_decode_char_cascade exFontA 9).2.2.1 (by rfl),
   (cid_decode_char_cascade exFontA 9).2.2.2 (by rfl) (by rfl)⟩

/-- C2 (code bug): in the source, a `W` triple entry `[first last width]`
reads `c_first`, `c_last` and `c_width` all from `w[i]` and fills the
half-open range `c_first..c_last`, which is empty, so `[0 5 100]` assigns no
width at all and `get_width` falls back to the default width 1000 for CID 3
instead of the 100 the specification promises. -/
theorem w_triple_assigns_nothing :
    parseW [WObj.int 0, WObj.int 5, WObj.int 100] = some [] ∧
    getWidth [] (defaultWidthOf none) 3 = 1000 := by
  refine ⟨by rfl, by rfl⟩

/-! ## Claim C9: `PdfCIDFont::next_char` (src/src/fonts.rs:1168-1188) -/

/-- The inner codespace scan of `next_char`:
`c >= range.start && c <= range.end && range.width == width` over the list
of codespace ranges (the `break` on first hit is observationally `any`,
since every hit yields the same `(c, width)`). -/
def inCodespaceW (cs : List CodeRange) (c w : Nat) : Bool :=
  cs.any (fun r => decide (r.start ≤ c) && decide (c ≤ r.stop) && decide (r.width = w))

/-- The final CID-range scan of `next_char`: the first range with
`src_code_lo ≤ code ≤ src_code_hi` yields `code.0 + range.dst_CID_lo`, a
`u32` addition that wraps modulo 2^32 in release builds (a debug build
would panic on overflow instead). -/
def findCID (cid : List CIDRange) (v : Nat) : Option Nat :=
  match cid with
  | [] => none
  | r :: rest =>
    if r.srcCodeLo ≤ v ∧ v ≤ r.srcCodeHi then some ((v + r.dstCIDLo) % (2 ^ 32))
    else findCID rest v

/-- `PdfCIDFont::next_char` with the `for width in 1..=4` loop unrolled
(the iterator is a byte list; bytes are `u8` values, for which
`(c << 8) | next` is `c * 256 + next`).  After a codespace hit at width `w`
exactly `w` bytes have been consumed; when even the width-4 probe misses,
the source pulls one more byte and returns `None` either way. -/
def nextChar (enc : ByteMapping) : List Nat → Option (Nat × Nat)
  | [] => none
  | b1 :: t1 =>
    let c1 := b1
    if inCodespaceW enc.codespace c1 1 then (findCID enc.cid c1).map (fun x => (x, 1))
    else match t1 with
    | [] => none
    | b2 :: t2 =>
      let c2 := c1 * 256 + b2
      if inCodespaceW enc.codespace c2 2 then (findCID enc.cid c2).map (fun x => (x, 2))
      else match t2 with
      | [] => none
      | b3 :: t3 =>
        let c3 := c2 * 256 + b3
        if inCodespaceW enc.codespace c3 3 then (findCID enc.cid c3).map (fun x => (x, 3))
        else match t3 with
        | [] => none
        | b4 :: _t4 =>
          let c4 := c3 * 256 + b4
          if inCodespaceW enc.codespace c4 4 then (findCID enc.cid c4).map (fun x => (x, 4))
          else none

/-- Big-endian accumulation of a byte list, as the specification describes
the 1-to-4-byte code accumulation. -/
def accumBE (bytes : List Nat) : Nat := bytes.foldl (fun a b => a * 256 + b) 0

/-- The first width in the given candidate list for which the input has
enough bytes and the accumulated value lies in a codespace range of
matching width.  Written from the claim, to be compared with `nextChar`. -/
def firstMatchWidth (enc : ByteMapping) (bytes : List Nat) : List Nat → Option Nat
  | [] => none
  | w :: rest =>
    if w ≤ bytes.length ∧ inCodespaceW enc.codespace (accumBE (bytes.take w)) w then some w
    else firstMatchWidth enc bytes rest

/-- `next_char` as the amended claim words it: accumulate 1 to 4 bytes,
take the first accumulated value lying in a codespace range of matching
width, translate it through the CID ranges by the wrapping u32 addition
`(code + dst_CID_lo) mod 2^32`; `none` when the input ends mid-code, when
no codespace range of width 1-4 matches, or when no CID range contains the
matched code. -/
def nextCharSpec (enc : ByteMapping) (bytes : List Nat) : Option (Nat × Nat) :=
  match firstMatchWidth enc bytes [1, 2, 3, 4] with
  | some w => (findCID enc.cid (accumBE (bytes.take w))).map (fun x => (x, w))
  | none => none

/-- C9 (amended): `next_char` is total and, under the release semantics in
which the u32 CID translation `code + dst_CID_lo` wraps modulo 2^32 (a
debug build would panic on overflow), agrees with the claim's description
for every byte sequence and every encoding; every other partial Rust
operation is reflected in the `Option` result. -/
theorem next_char_eq_spec (enc : ByteMapping) (bytes : List Nat) :
    nextChar enc bytes = nextCharSpec enc bytes := by
  rcases bytes with _ | ⟨b1, _ | ⟨b2, _ | ⟨b3, _ | ⟨b4, t⟩⟩⟩⟩ <;>
    simp only [nextChar, nextCharSpec, firstMatchWidth, accumBE, List.take,
      List.foldl, List.length] <;>
    norm_num <;>
    split_ifs <;>
    simp_all

/-- An encoding whose CID range carries the maximal `dst_CID_lo`
(u32::MAX), so translating code 1 overflows u32. -/
def overflowEnc : ByteMapping :=
  { codespace := [⟨1, 0, 255⟩], cid := [⟨0, 255, 2 ^ 32 - 1⟩] }

/-- C9 counterexample: at code 1 with `dst_CID_lo = u32::MAX` the u32 sum
wraps, so `next_char` returns code 0 where the claim's unbounded reading
`code + dst_CID_lo` would be 2^32 (and a debug build would panic on this
very addition rather than return at all). -/
theorem next_char_overflow_counterexample :
    nextChar overflowEnc [1] = some ((1 + (2 ^ 32 - 1)) % 2 ^ 32, 1) ∧
    nextChar overflowEnc [1] = some (0, 1) ∧
    1 + (2 ^ 32 - 1) = 2 ^ 32 ∧
    (((0 : Nat) == 2 ^ 32)) = false := by
  refine ⟨by decide, by decide, by decide, by decide⟩

/-! ## Claim C10: `pdf_to_utf8` / `to_utf8` (src/src/utils.rs:34-80) -/

/-- The static `PDFDocEncoding` table of src/src/utils.rs (256 `u16`
entries; unassigned code points are 0). -/
def pdfDocEncoding : List Nat := [
  0x0000, 0x0001, 0x0002, 0x0003, 0x0004, 0x0005, 0x0006, 0x0007,
  0x0008, 0x0009, 0x000a, 0x000b, 0x000c, 0x000d, 0x000e, 0x000f,
  0x0010, 0x0011, 0x0012, 0x0013, 0x0014, 0x0015, 0x0016, 0x0017,
  0x02d8, 0x02c7, 0x02c6, 0x02d9, 0x02dd, 0x02db, 0x02da, 0x02dc,
  0x0020, 0x0021, 0x0022, 0x0023, 0x0024, 0x0025, 0x0026, 0x0027,
  0x0028, 0x0029, 0x002a, 0x002b, 0x002c, 0x002d, 0x002e, 0x002f,
  0x0030, 0x0031, 0x0032, 0x0033, 0x0034, 0x0035, 0x0036, 0x0037,
  0x0038, 0x0039, 0x003a, 0x003b, 0x003c, 0x003d, 0x003e, 0x003f,
  0x0040, 0x0041, 0x0042, 0x0043, 0x0044, 0x0045, 0x0046, 0x0047,
  0x0048, 0x0049, 0x004a, 0x004b, 0x004c, 0x004d, 0x004e, 0x004f,
  0x0050, 0x0051, 0x0052, 0x0053, 0x0054, 0x0055, 0x0056, 0x0057,
  0x0058, 0x0059, 0x005a, 0x005b, 0x005c, 0x005d, 0x005e, 0x005f,
  0x0060, 0x0061, 0x0062, 0x0063, 0x0064, 0x0065, 0x0066, 0x0067,
  0x0068, 0x0069, 0x006a, 0x006b, 0x006c, 0x006d, 0x006e, 0x006f,
  0x0070, 0x0071, 0x0072, 0x0073, 0x0074, 0x0075, 0x0076, 0x0077,
  0x0078, 0x0079, 0x007a, 0x007b, 0x007c, 0x007d, 0x007e, 0x0000,
  0x2022, 0x2020, 0x2021, 0x2026, 0x2014, 0x2013, 0x0192, 0x2044,
  0x2039, 0x203a, 0x2212, 0x2030, 0x201e, 0x201c, 0x201d, 0x2018,
  0x2019, 0x201a, 0x2122, 0xfb01, 0xfb02, 0x0141, 0x0152, 0x0160,
  0x0178, 0x017d, 0x0131, 0x0142, 0x0153, 0x0161, 0x017e, 0x0000,
  0x20ac, 0x00a1, 0x00a2, 0x00a3, 0x00a4, 0x00a5, 0x00a6, 0x00a7,
  0x00a8, 0x00a9, 0x00aa, 0x00ab, 0x00ac, 0x0000, 0x00ae, 0x00af,
  0x00b0, 0x00b1, 0x00b2, 0x00b3, 0x00b4, 0x00b5, 0x00b6, 0x00b7,
  0x00b8, 0x00b9, 0x00ba, 0x00bb, 0x00bc, 0x00bd, 0x00be, 0x00bf,
  0x00c0, 0x00c1, 0x00c2, 0x00c3, 0x00c4, 0x00c5, 0x00c6, 0x00c7,
  0x00c8, 0x00c9, 0x00ca, 0x00cb, 0x00cc, 0x00cd, 0x00ce, 0x00cf,
  0x00d0, 0x00d1, 0x00d2, 0x00d3, 0x00d4, 0x00d5, 0x00d6, 0x00d7,
  0x00d8, 0x00d9, 0x00da, 0x00db, 0x00dc, 0x00dd, 0x00de, 0x00df,
  0x00e0, 0x00e1, 0x00e2, 0x00e3, 0x00e4, 0x00e5, 0x00e6, 0x00e7,
  0x00e8, 0x00e9, 0x00ea, 0x00eb, 0x00ec, 0x00ed, 0x00ee, 0x00ef,
  0x00f0, 0x00f1, 0x00f2, 0x00f3, 0x00f4, 0x00f5, 0x00f6, 0x00f7,
  0x00f8, 0x00f9, 0x00fa, 0x00fb, 0x00fc, 0x00fd, 0x00fe, 0x00ff]

/-- UTF-16BE byte-pairing: `encoding_rs` fails (here `none`, an `unwrap`
panic in the source) on a trailing odd byte. -/
def pairBytes : List Nat → Option (List Nat)
  | [] => some []
  | [_] => none
  | a :: b :: rest => (pairBytes rest).map (fun l => (a * 256 + b) :: l)

/-- UTF-16 code-unit combination without replacement: a high surrogate must
be followed by a low surrogate; an unpaired surrogate fails (`none`). -/
def combineUtf16 : List Nat → Option (List Nat)
  | [] => some []
  | u :: rest =>
    if 0xd800 ≤ u ∧ u ≤ 0xdbff then
      match rest with
      | [] => none
      | v :: rest2 =>
        if 0xdc00 ≤ v ∧ v ≤ 0xdfff then
          (combineUtf16 rest2).map
            (fun l => (0x10000 + (u - 0xd800) * 0x400 + (v - 0xdc00)) :: l)
        else none
    else if 0xdc00 ≤ u ∧ u ≤ 0xdfff then none
    else (combineUtf16 rest).map (fun l => u :: l)

/-- `UTF_16BE.decode_without_bom_handling_and_without_replacement` on a byte
list, returning the decoded code points. -/
def decodeUtf16BE (bytes : List Nat) : Option (List Nat) :=
  (pairBytes bytes).bind combineUtf16

/-- The branch condition `s.len() > 2 && s[0] == 0xfe && s[1] == 0xff`
shared by `pdf_to_utf8` and `to_utf8`. -/
def hasBOM (s : List Nat) : Bool :=
  match s with
  | a :: b :: _ :: _ => a = 0xfe && b = 0xff
  | _ => false

/-- The byte expansion of `pdf_to_utf8`'s else-branch: every input byte is
mapped through `PDFDocEncoding` and contributes both halves of the 16-bit
entry, zero entries included. -/
def pdfDocBytes : List Nat → List Nat
  | [] => []
  | x :: rest =>
    (pdfDocEncoding.getD x 0) / 256 :: (pdfDocEncoding.getD x 0) % 256 :: pdfDocBytes rest

/-- The byte expansion of `to_utf8`'s else-branch: like `pdfDocBytes` over
the given encoding, but a zero entry contributes nothing. -/
def encBytes (encoding : List Nat) : List Nat → List Nat
  | [] => []
  | x :: rest =>
    let k := encoding.getD x 0
    (if k = 0 then [] else [k / 256, k % 256]) ++ encBytes encoding rest

/-- `pdf_to_utf8` (src/src/utils.rs:34-54). -/
def pdfToUtf8 (s : List Nat) : Option (List Nat) :=
  if hasBOM s then decodeUtf16BE (s.drop 2)
  else decodeUtf16BE (pdfDocBytes s)

/-- `to_utf8` (src/src/utils.rs:56-80). -/
def toUtf8 (encoding : List Nat) (s : List Nat) : Option (List Nat) :=
  if hasBOM s then decodeUtf16BE (s.drop 2)
  else decodeUtf16BE (encBytes encoding s)

/-- C10: the UTF-16BE branch of the PDF string decoder fires only for
strings strictly longer than 2 bytes beginning FE FF; the two-byte input
FE FF itself goes through PDFDocEncoding byte-by-byte (yielding U+00FE
U+00FF rather than the empty result of BOM stripping); and `pdf_to_utf8`
expands every byte through the table, zero entries included, while
`to_utf8` drops zero entries. -/
theorem pdf_to_utf8_bom_and_zero_entries :
    (∀ s : List Nat, 2 < s.length → s.get? 0 = some 0xfe → s.get? 1 = some 0xff →
      pdfToUtf8 s = decodeUtf16BE (s.drop 2)) ∧
    pdfToUtf8 [0xfe, 0xff] = some [0xfe, 0xff] ∧
    decodeUtf16BE (([0xfe, 0xff] : List Nat).drop 2) = some [] ∧
    (∀ s : List Nat, (pdfDocBytes s).length = 2 * s.length) ∧
    pdfToUtf8 [0] = some [0] ∧
    toUtf8 pdfDocEncoding [0] = some [] := by
  refine ⟨?_, by decide, by decide, ?_, by decide, by decide⟩
  · intro s hlen h0 h1
    match s, hlen with
    | a :: b :: c :: rest, _ =>
      simp only [List.get?] at h0 h1
      cases h0; cases h1
      simp [pdfToUtf8, hasBOM]
  · intro s
    induction s with
    | nil => rfl
    | cons x rest ih => simp [pdfDocBytes, ih]; ring

/-- Witness for C10's universally quantified BOM branch at the concrete
input FE FF 00 41. -/
theorem pdf_to_utf8_bom_and_zero_entries_witness :
    pdfToUtf8 [0xfe, 0xff, 0x00, 0x41] = decodeUtf16BE [0x00, 0x41] :=
  pdf_to_utf8_bom_and_zero_entries.1 [0xfe, 0xff, 0x00, 0x41]
    (by decide) (by decide) (by decide)

/-! ## Affine transforms (euclid `Transform2D<f32>`, row-major 2x3)

`A.then B` applies `A` first (`euclid` post-composition): in row-vector
convention it is the matrix product `A * B`. -/

/-- A 2x3 affine matrix over the coordinate field. -/
structure Transform where
  m11 : ℚ
  m12 : ℚ
  m21 : ℚ
  m22 : ℚ
  m31 : ℚ
  m32 : ℚ
  deriving DecidableEq, Repr

/-- `Transform2D::identity`. -/
def Transform.identity : Transform := ⟨1, 0, 0, 1, 0, 0⟩

/-- `A.then(&B)`: apply `A` first, then `B`. -/
def Transform.thenT (A B : Transform) : Transform :=
  ⟨A.m11 * B.m11 + A.m12 * B.m21,
   A.m11 * B.m12 + A.m12 * B.m22,
   A.m21 * B.m11 + A.m22 * B.m21,
   A.m21 * B.m12 + A.m22 * B.m22,
   A.m31 * B.m11 + A.m32 * B.m21 + B.m31,
   A.m31 * B.m12 + A.m32 * B.m22 + B.m32⟩

/-- `Transform2D::translation(tx, ty)`. -/
def Transform.translation (tx ty : ℚ) : Transform := ⟨1, 0, 0, 1, tx, ty⟩

/-- `transform_vector`: apply the linear part only. -/
def Transform.transformVector (A : Transform) (x y : ℚ) : ℚ × ℚ :=
  (x * A.m11 + y * A.m21, x * A.m12 + y * A.m22)

/-- `f32::abs` on the rational model (kept as an `if` so that it evaluates
by `simp`; it agrees with `|·|`). -/
def qAbs (q : ℚ) : ℚ := if q < 0 then -q else q

theorem qAbs_eq_abs (q : ℚ) : qAbs q = |q| := by
  unfold qAbs
  rcases lt_or_le q 0 with h | h
  · rw [if_pos h, abs_of_neg h]
  · rw [if_neg (not_lt.mpr h), abs_of_nonneg h]

/-! ## Span assembler (src/src/output.rs `BoundingBoxOutput`)

`transformed_font_size` is `sqrt(v.x * v.y)` in the source; square roots
leave `ℚ`, so the model threads an explicit function `sq : ℚ → ℚ` standing
for `f32::sqrt` (nonnegative on nonnegative input, NaN below zero, which a
rational model cannot represent; theorems that need it take `0 ≤ sq _` as a
hypothesis). -/

/-- `types.rs BoundingBox` (t, r, b, l). -/
structure BoundingBox where
  t : ℚ
  r : ℚ
  b : ℚ
  l : ℚ
  deriving DecidableEq, Repr

/-- `types.rs TextSpan` (text as its character list). -/
structure TextSpan where
  text : List Char
  bbox : BoundingBox
  fontSize : ℚ
  pageNum : Nat
  deriving DecidableEq, Repr

/-- The mutable state of `BoundingBoxOutput`. -/
structure BBState where
  flipCtm : Transform
  bufStartX : ℚ
  bufStartY : ℚ
  bufEndX : ℚ
  lastX : ℚ
  lastY : ℚ
  bufFontSize : ℚ
  bufCtm : Transform
  buf : List Char
  firstChar : Bool
  currentPage : Nat
  spans : List TextSpan

/-- `BoundingBoxOutput::new`. -/
def BBState.new : BBState :=
  { flipCtm := .identity, bufStartX := 0, bufStartY := 0, bufEndX := 0,
    lastX := 0, lastY := 0, bufFontSize := 0, bufCtm := .identity,
    buf := [], firstChar := false, currentPage := 0, spans := [] }

/-- The `transformed_font_size` computed by `flush_string` from the buffered
CTM and font size. -/
def bufTfsArg (st : BBState) : ℚ :=
  let v := st.bufCtm.transformVector st.bufFontSize st.bufFontSize
  v.1 * v.2

/-- `BoundingBoxOutput::flush_string` (src/src/output.rs:152-187): emit the
buffered span with `l = min(start, end)`, `r = max(start, end)`,
`b = start_y` and `t = b + transformed_font_size`; a span is pushed only
for a non-empty buffer. -/
def flushString (sq : ℚ → ℚ) (st : BBState) : BBState :=
  if st.buf.length ≠ 0 then
    let bottomLeftX := min st.bufStartX st.bufEndX
    let bottomRightX := max st.bufStartX st.bufEndX
    let bottomY := st.bufStartY
    let tfs := sq (bufTfsArg st)
    let topY := st.bufStartY + tfs
    let bbox : BoundingBox := ⟨topY, bottomRightX, bottomY, bottomLeftX⟩
    { st with
      spans := st.spans ++ [⟨st.buf, bbox, st.bufFontSize, st.currentPage⟩],
      buf := [] }
  else st

/-- `BoundingBoxOutput::output_character` (src/src/output.rs:207-273).
`gap / transformed_font_size` is rational division (zero at a zero
denominator, where `f32` gives an infinity; none of the settled claims
touch that path), and `is_whitespace` is `Char.isWhitespace`. -/
def outputCharacter (sq : ℚ → ℚ) (trm : Transform) (width _spacing fontSize : ℚ)
    (char : List Char) (st : BBState) : BBState :=
  let position := trm.thenT st.flipCtm
  let v := trm.transformVector fontSize fontSize
  let tfs := sq (v.1 * v.2)
  let x := position.m31
  let y := position.m32
  let normalized := if char = ['\t'] then [' '] else char
  if st.buf.isEmpty then
    { st with
      bufStartX := x
      bufStartY := y
      bufFontSize := fontSize
      bufCtm := trm
      buf := normalized
      firstChar := false
      lastX := x
      lastY := y
      bufEndX := x + width * tfs }
  else
    let st1 :=
      if st.bufEndX = st.lastX ∧ qAbs (y - st.lastY) < tfs * (1 / 2) then
        { st with bufEndX := x }
      else st
    let gap := x - st1.bufEndX
    let gapR := gap / tfs
    let yGap := qAbs (y - st.lastY)
    let shouldFlush :=
      yGap > tfs * (3 / 2) ∨ (x < st1.bufEndX ∧ yGap > tfs * (1 / 2)) ∨ qAbs gapR > 6 / 5
    if shouldFlush then
      let st2 := flushString sq st1
      { st2 with
        bufStartX := x
        bufStartY := y
        bufFontSize := fontSize
        bufCtm := trm
        buf := normalized
        firstChar := false
        lastX := x
        lastY := y
        bufEndX := x + width * tfs }
    else
      let prevIsSpace := (st1.buf.getLast?.map Char.isWhitespace).getD false
      let willInsert := ¬prevIsSpace ∧ gapR > 3 / 20
      { st1 with
        buf := st1.buf ++ (if willInsert then [' '] else []) ++ normalized
        firstChar := false
        lastX := x
        lastY := y
        bufEndX := x + width * tfs }

/-- `BoundingBoxOutput::begin_page`. -/
def beginPage (page : Nat) (lly ury : ℚ) (st : BBState) : BBState :=
  { st with currentPage := page, flipCtm := ⟨1, 0, 0, -1, 0, ury - lly⟩ }

/-- `BoundingBoxOutput::end_page`. -/
def endPage (sq : ℚ → ℚ) (st : BBState) : BBState := flushString sq st

/-- `BoundingBoxOutput::begin_word`. -/
def beginWord (st : BBState) : BBState := { st with firstChar := true }

/-! ## Content-stream interpreter (src/src/processor.rs)

The `dyn PdfFont` trait object of the source is a record of its methods;
`Tf` carries the already-resolved font (resource lookup, `make_font` and the
per-page font cache touch the external document graph and are outside the
modelled operator subset, as are `gs`, `Do` and the marked-content stack,
none of which the settled claims concern). -/

/-- The capability set of `dyn PdfFont` used by `show_text`:
`char_codes` (the iterator of `(code, byte_length)` pairs), `get_width`,
`decode_char`. -/
structure FontImpl where
  charCodes : List Nat → List (Nat × Nat)
  width : Nat → ℚ
  decode : Nat → List Char

/-- `processor.rs TextState`. -/
structure TextState where
  font : Option FontImpl
  fontSize : ℚ
  charSpacing : ℚ
  wordSpacing : ℚ
  horizScale : ℚ
  leading : ℚ
  rise : ℚ
  tm : Transform

/-- `processor.rs GraphicsState` (the soft mask, set only by the unmodelled
`gs` operator, is omitted). -/
structure GState where
  ctm : Transform
  ts : TextState
  lineWidth : ℚ

/-- Panics of the interpreter (e.g. `ts.font.as_ref().unwrap()` with no
font set). -/
inductive PErr where
  | panic
  deriving DecidableEq, Repr

/-- The glyph spacing of the `show_text` loop:
`character_spacing`, plus `word_spacing` exactly on the single-byte
code 32. -/
def glyphSpacing (ts : TextState) (c len : Nat) : ℚ :=
  ts.charSpacing + (if c = 32 ∧ len = 1 then ts.wordSpacing else 0)

/-- One iteration of the `for (c, length) in font.char_codes(s)` loop of
`show_text` (src/src/processor.rs:47-86): build `Trm = Tsm * Tm * CTM`,
fetch `w0`, add word spacing for a literal single-byte 0x20, emit the glyph
event, and advance `Tm` by `tx = horizontal_scaling * ((w0 - tj/1000) *
font_size + spacing)` with `tj = 0`. -/
def showTextGlyph (sq : ℚ → ℚ) (ctm : Transform) (font : FontImpl)
    (acc : TextState × BBState) (cl : Nat × Nat) : TextState × BBState :=
  let (ts, out) := acc
  let (c, len) := cl
  let tsm : Transform := ⟨ts.horizScale, 0, 0, 1, 0, ts.rise⟩
  let trm := tsm.thenT (ts.tm.thenT ctm)
  let w0 := font.width c / 1000
  let spacing := glyphSpacing ts c len
  let out2 := outputCharacter sq trm w0 spacing ts.fontSize (font.decode c) out
  let tj : ℚ := 0
  let tx := ts.horizScale * ((w0 - tj / 1000) * ts.fontSize + spacing)
  let ts2 := { ts with tm := (Transform.translation tx 0).thenT ts.tm }
  (ts2, out2)

/-- `show_text` (src/src/processor.rs:36-88): unwrap the font (panic when
none), `begin_word`, run the glyph loop, `end_word` (a no-op). -/
def showText (sq : ℚ → ℚ) (gs : GState) (str : List Nat) (out : BBState) :
    Except PErr (GState × BBState) :=
  match gs.ts.font with
  | none => .error .panic
  | some font =>
    let out0 := beginWord out
    let res := (font.charCodes str).foldl (showTextGlyph sq gs.ctm font) (gs.ts, out0)
    .ok ({ gs with ts := res.1 }, res.2)

/-- An element of a `TJ` operand array: a shown string or a numeric
adjustment (the source's Integer and Real arms have identical bodies). -/
inductive TJItem where
  | str (s : List Nat)
  | num (n : ℚ)

/-- The content-stream operators of the modelled subset; everything the
source ignores (path operators, colours, unknown operators) is `other`. -/
inductive Op where
  | BT
  | ET
  | cm (a b c d e f : ℚ)
  | Tc (n : ℚ)
  | Tw (n : ℚ)
  | Tz (n : ℚ)
  | TL (n : ℚ)
  | Ts (n : ℚ)
  | Tf (font : FontImpl) (size : ℚ)
  | Tm6 (a b c d e f : ℚ)
  | Td (tx ty : ℚ)
  | TD (tx ty : ℚ)
  | Tstar
  | Tj (s : List Nat)
  | TJ (items : List TJItem)
  | saveState
  | restoreState
  | other

/-- The interpreter state of `process_stream`: current graphics state, the
`q`/`Q` stack, the text line matrix and the output device. -/
structure PState where
  gs : GState
  stack : List GState
  tlm : Transform
  out : BBState

/-- The `TJ` numeric adjustment:
`tx = horizontal_scaling * ((w0 - tj/1000) * font_size)` with `w0 = 0`. -/
def tjAdjust (ts : TextState) (n : ℚ) : TextState :=
  let w0 : ℚ := 0
  let tx := ts.horizScale * ((w0 - n / 1000) * ts.fontSize)
  { ts with tm := (Transform.translation tx 0).thenT ts.tm }

/-- One arm of the operator dispatch of `process_stream`
(src/src/processor.rs:170-352). -/
def interpOp (sq : ℚ → ℚ) (st : PState) (op : Op) : Except PErr PState :=
  match op with
  | .BT =>
    .ok { st with tlm := .identity, gs := { st.gs with ts := { st.gs.ts with tm := .identity } } }
  | .ET =>
    .ok { st with tlm := .identity, gs := { st.gs with ts := { st.gs.ts with tm := .identity } } }
  | .cm a b c d e f =>
    .ok { st with gs := { st.gs with ctm := (Transform.mk a b c d e f).thenT st.gs.ctm } }
  | .Tc n => .ok { st with gs := { st.gs with ts := { st.gs.ts with charSpacing := n } } }
  | .Tw n => .ok { st with gs := { st.gs with ts := { st.gs.ts with wordSpacing := n } } }
  | .Tz n => .ok { st with gs := { st.gs with ts := { st.gs.ts with horizScale := n / 100 } } }
  | .TL n => .ok { st with gs := { st.gs with ts := { st.gs.ts with leading := n } } }
  | .Ts n => .ok { st with gs := { st.gs with ts := { st.gs.ts with rise := n } } }
  | .Tf font size =>
    .ok { st with gs := { st.gs with ts := { st.gs.ts with font := some font, fontSize := size } } }
  | .Tm6 a b c d e f =>
    let m := Transform.mk a b c d e f
    .ok { st with tlm := m, gs := { st.gs with ts := { st.gs.ts with tm := m } } }
  | .Td tx ty =>
    let tlm2 := (Transform.translation tx ty).thenT st.tlm
    .ok { st with tlm := tlm2, gs := { st.gs with ts := { st.gs.ts with tm := tlm2 } } }
  | .TD tx ty =>
    let tlm2 := (Transform.translation tx ty).thenT st.tlm
    .ok { st with
          tlm := tlm2
          gs := { st.gs with ts := { st.gs.ts with leading := -ty, tm := tlm2 } } }
  | .Tstar =>
    let tlm2 := (Transform.translation 0 (-st.gs.ts.leading)).thenT st.tlm
    .ok { st with tlm := tlm2, gs := { st.gs with ts := { st.gs.ts with tm := tlm2 } } }
  | .Tj s => do
    let (gs2, out2) ← showText sq st.gs s st.out
    return { st with gs := gs2, out := out2 }
  | .TJ items => do
    let (gs2, out2) ← items.foldlM
      (fun (acc : GState × BBState) item =>
        match item with
        | .str s => showText sq acc.1 s acc.2
        | .num n => .ok ({ acc.1 with ts := tjAdjust acc.1.ts n }, acc.2))
      (st.gs, st.out)
    return { st with gs := gs2, out := out2 }
  | .saveState => .ok { st with stack := st.gs :: st.stack }
  | .restoreState =>
    match st.stack with
    | [] => .ok st
    | top :: rest => .ok { st with gs := top, stack := rest }
  | .other => .ok st

/-- The initial graphics state of `process_stream` (the source seeds
`font_size` with `f32::NAN`; the rational model uses 0, a value that can
never reach an emitted glyph because `show_text` panics first on the unset
font). -/
def initGS : GState :=
  { ctm := .identity,
    ts := { font := none, fontSize := 0, charSpacing := 0, wordSpacing := 0,
            horizScale := 1, leading := 0, rise := 0, tm := .identity },
    lineWidth := 1 }

/-- `Processor::process_stream` (src/src/processor.rs:134-352): when
`Content::decode` fails the page content is skipped with a warning and the
function returns `Ok` with the output untouched; otherwise the operation
list is interpreted. -/
def processStream (sq : ℚ → ℚ) (decode : List Nat → Except String (List Op))
    (content : List Nat) (out : BBState) : Except PErr BBState :=
  match decode content with
  | .error _ => .ok out
  | .ok ops => do
    let st0 : PState := { gs := initGS, stack := [], tlm := .identity, out := out }
    let stFin ← ops.foldlM (interpOp sq) st0
    return stFin.out

/-- The per-page loop of `extract_structured_from_doc`
(src/src/extract.rs:12-46) restricted to the content processing: pages are
processed in order, each through `process_stream` with `?`. -/
def processPages (sq : ℚ → ℚ) (decode : List Nat → Except String (List Op))
    (pages : List (List Nat)) (out : BBState) : Except PErr BBState :=
  pages.foldlM (fun o p => processStream sq decode p o) out

/-! ## Claims C4 and C5 -/

/-- C4: in the glyph loop of a text-showing operator, the applied spacing
is `character_spacing` plus `word_spacing` exactly for the single-byte
code 0x20 (never for a multi-byte code, whatever it decodes to), and the
text matrix advances along x by
`horizontal_scaling * (w0 * font_size + spacing)`. -/
theorem show_text_word_spacing (sq : ℚ → ℚ) (ctm : Transform) (font : FontImpl)
    (ts : TextState) (out : BBState) (c len : Nat) :
    (c = 32 ∧ len = 1 → glyphSpacing ts c len = ts.charSpacing + ts.wordSpacing) ∧
    (¬(c = 32 ∧ len = 1) → glyphSpacing ts c len = ts.charSpacing) ∧
    (showTextGlyph sq ctm font (ts, out) (c, len)).1.tm =
      (Transform.translation
        (ts.horizScale * (font.width c / 1000 * ts.fontSize + glyphSpacing ts c len))
        0).thenT ts.tm := by
  refine ⟨?_, ?_, ?_⟩
  · intro h
    simp [glyphSpacing, h]
  · intro h
    simp [glyphSpacing, h]
  · simp only [showTextGlyph]
    norm_num

/-- A trivial concrete font for witnesses. -/
def exFont : FontImpl :=
  { charCodes := fun _ => [], width := fun _ => 500, decode := fun _ => [] }

/-- A concrete text state with distinct character and word spacing. -/
def exTS : TextState :=
  { font := some exFont, fontSize := 12, charSpacing := 2, wordSpacing := 5,
    horizScale := 1, leading := 0, rise := 0, tm := .identity }

/-- Witness for C4: the single-byte space receives word spacing, a two-byte
code 32 does not. -/
theorem show_text_word_spacing_witness :
    glyphSpacing exTS 32 1 = exTS.charSpacing + exTS.wordSpacing ∧
    glyphSpacing exTS 32 2 = exTS.charSpacing :=
  ⟨(show_text_word_spacing (fun q => q) .identity exFont exTS BBState.new 32 1).1
     ⟨rfl, rfl⟩,
   (show_text_word_spacing (fun q => q) .identity exFont exTS BBState.new 32 2).2.1
     (by decide)⟩

/-- C5: a page whose content stream fails to decode does not fail the
extraction: `process_stream` warns, leaves the output untouched and returns
`Ok`, and the page loop continues with the remaining pages. -/
theorem process_stream_decode_failure (sq : ℚ → ℚ)
    (decode : List Nat → Except String (List Op)) (content : List Nat)
    (out : BBState) (e : String) (h : decode content = .error e)
    (rest : List (List Nat)) :
    processStream sq decode content out = .ok out ∧
    processPages sq decode (content :: rest) out = processPages sq decode rest out := by
  constructor
  · simp [processStream, h]
  · simp [processPages, processStream, h, List.foldlM, Bind.bind, Except.bind]

/-- Witness for C5 with an always-failing decoder. -/
theorem process_stream_decode_failure_witness :
    processStream (fun q => q) (fun _ => .error "bad") [0] BBState.new = .ok BBState.new ∧
    processPages (fun q => q) (fun _ => .error "bad") [[0]] BBState.new =
      processPages (fun q => q) (fun _ => .error "bad") [] BBState.new :=
  process_stream_decode_failure (fun q => q) (fun _ => .error "bad") [0]
    BBState.new "bad" rfl []

/-! ## Line assembly (src/src/output.rs `into_lines`) and claims C3, C6 -/

/-- `f32::round`: round half away from zero. -/
def rustRound (q : ℚ) : Int :=
  if 0 ≤ q then ⌊q + 1 / 2⌋ else ⌈q - 1 / 2⌉

/-- Stable insertion into a sorted list: the new element goes after every
strictly smaller element and before ties. -/
def insertStable (lt : α → α → Bool) (a : α) : List α → List α
  | [] => [a]
  | b :: t => if lt b a then b :: insertStable lt a t else a :: b :: t

/-- A stable sort (Rust `sort_by` is stable, and every stable sort of a
list by the same total comparator yields the same list). -/
def sortStable (lt : α → α → Bool) (l : List α) : List α :=
  l.foldr (insertStable lt) []

/-- The span comparator of `into_lines`: page number first, then top y
(`partial_cmp` is total on rationals). -/
def spanLt (a b : TextSpan) : Bool :=
  decide (a.pageNum < b.pageNum ∨ (a.pageNum = b.pageNum ∧ a.bbox.t < b.bbox.t))

/-- The within-line comparator of `into_lines`: left edge. -/
def lineLt (a b : TextSpan) : Bool :=
  decide (a.bbox.l < b.bbox.l)

/-- The walking state of the `into_lines` loop. -/
structure LineAcc where
  lines : List (List TextSpan)
  current : List TextSpan
  lastY : Option ℚ
  lastPage : Option Nat
  deriving DecidableEq

/-- The page-change handling of `into_lines` (src/src/output.rs:81-98):
on a new page, flush the current line sorted by left edge, push one empty
separator line and clear the last y. -/
def pageBreakStep (acc : LineAcc) (spanPage : Nat) : LineAcc :=
  match acc.lastPage with
  | some prevPage =>
    if spanPage ≠ prevPage then
      { lines := acc.lines ++
          (if acc.current.isEmpty then [] else [sortStable lineLt acc.current]) ++ [[]]
        current := []
        lastY := none
        lastPage := acc.lastPage }
    else acc
  | none => acc

/-- The baseline-gap handling of `into_lines` (src/src/output.rs:100-131):
a gap above 5.0 flushes the current line sorted by left edge; a gap above
24.0 additionally computes `blank_lines = round((y_gap - 10)/10) as usize`
but pushes a single empty line when that count is at least 1 (the push loop
is commented out in the source). -/
def gapBreakStep (acc : LineAcc) (spanY : ℚ) : LineAcc :=
  match acc.lastY with
  | some prevY =>
    let yGap := qAbs (spanY - prevY)
    if yGap > 5 then
      { lines := (acc.lines ++
          (if acc.current.isEmpty then [] else [sortStable lineLt acc.current])) ++
          (if yGap > 24 then
            (if 1 ≤ (rustRound ((yGap - 10) / 10)).toNat then [[]] else [])
          else [])
        current := []
        lastY := acc.lastY
        lastPage := acc.lastPage }
    else acc
  | none => acc

/-- One iteration of the span walk of `into_lines`. -/
def intoLinesStep (acc : LineAcc) (span : TextSpan) : LineAcc :=
  let acc2 := gapBreakStep (pageBreakStep acc span.pageNum) span.bbox.b
  { lines := acc2.lines
    current := acc2.current ++ [span]
    lastY := some span.bbox.b
    lastPage := some span.pageNum }

/-- `BoundingBoxOutput::into_lines` (src/src/output.rs:53-149): sort spans
by page then top y, walk them grouping into lines, flush the last line. -/
def intoLines (spans : List TextSpan) : List (List TextSpan) :=
  if spans.isEmpty then []
  else
    let acc := (sortStable spanLt spans).foldl intoLinesStep
      { lines := [], current := [], lastY := none, lastPage := none }
    acc.lines ++ (if acc.current.isEmpty then [] else [sortStable lineLt acc.current])

/-- C3 counterexample span (page 1, baseline 100). -/
def cs1 : TextSpan := ⟨['a'], ⟨110, 10, 100, 0⟩, 10, 1⟩

/-- C3 counterexample span (page 1, baseline 140: a 40-point gap). -/
def cs2 : TextSpan := ⟨['b'], ⟨150, 10, 140, 0⟩, 10, 1⟩

/-- C3 counterexample: with a 40-point baseline gap the claim calls for
`round((40 - 10)/10) = 3` blank separator lines, but the assembler emits
exactly one. -/
theorem into_lines_single_blank_counterexample :
    intoLines [cs1, cs2] = [[cs1], [], [cs2]] ∧
    (intoLines [cs1, cs2]).countP (fun l => l.isEmpty) = 1 ∧
    (rustRound ((qAbs (cs2.bbox.b - cs1.bbox.b) - 10) / 10)).toNat = 3 := by
  have h3 : (rustRound ((qAbs ((140 : ℚ) - 100) - 10) / 10)).toNat = 3 := by
    norm_num [qAbs, rustRound]
    all_goals decide
  have heval : intoLines [cs1, cs2] = [[cs1], [], [cs2]] := by
    simp only [intoLines, sortStable, insertStable, spanLt, lineLt, cs1, cs2,
      List.foldr, List.foldl, intoLinesStep, pageBreakStep, gapBreakStep, qAbs,
      List.isEmpty]
    norm_num [rustRound, insertStable, Int.toNat_ofNat]
  refine ⟨heval, by rw [heval]; rfl, by simpa [cs1, cs2] using h3⟩

/-- C3 (amended): when two consecutive spans share a page and their
baseline gap exceeds 5.0, the current line is flushed sorted by left edge,
and when the gap also exceeds 24.0 exactly one empty line is pushed (the
computed `round((y_gap - 10)/10)` only serves as a `>= 1` guard, which
always holds there); the incoming span then starts the new current line. -/
theorem into_lines_flush_and_single_blank (acc : LineAcc) (span : TextSpan)
    (prevY : ℚ) (hpage : acc.lastPage = some span.pageNum)
    (hy : acc.lastY = some prevY) (hgap : qAbs (span.bbox.b - prevY) > 5) :
    (intoLinesStep acc span).lines =
      (acc.lines ++
        (if acc.current.isEmpty then [] else [sortStable lineLt acc.current])) ++
        (if qAbs (span.bbox.b - prevY) > 24 then [[]] else []) ∧
    (intoLinesStep acc span).current = [span] := by
  have h1 : pageBreakStep acc span.pageNum = acc := by
    unfold pageBreakStep
    rw [hpage]
    simp
  have hblank : qAbs (span.bbox.b - prevY) > 24 →
      1 ≤ (rustRound ((qAbs (span.bbox.b - prevY) - 10) / 10)).toNat := by
    intro h24
    have h0 : (0 : ℚ) ≤ (qAbs (span.bbox.b - prevY) - 10) / 10 := by
      have : (0 : ℚ) ≤ qAbs (span.bbox.b - prevY) - 10 := by linarith
      positivity
    have hfloor : (1 : ℤ) ≤ ⌊(qAbs (span.bbox.b - prevY) - 10) / 10 + 1 / 2⌋ := by
      rw [Int.le_floor]
      have : (7 : ℚ) / 5 < (qAbs (span.bbox.b - prevY) - 10) / 10 := by
        rw [lt_div_iff₀ (by norm_num : (0:ℚ) < 10)]
        linarith
      push_cast
      linarith
    simp only [rustRound, if_pos h0]
    omega
  unfold intoLinesStep
  rw [h1]
  unfold gapBreakStep
  rw [hy]
  simp only [if_pos hgap]
  by_cases h24 : qAbs (span.bbox.b - prevY) > 24
  · simp [h24, hblank h24]
  · simp [h24]

/-- Witness acc for C3: one pending span on page 1 with baseline 100. -/
def exAcc : LineAcc :=
  { lines := [], current := [cs1], lastY := some 100, lastPage := some 1 }

/-- Witness for C3 at `exAcc` and `cs2` (gap 40). -/
theorem into_lines_flush_and_single_blank_witness :
    (intoLinesStep exAcc cs2).lines = [[cs1], []] ∧
    (intoLinesStep exAcc cs2).current = [cs2] := by
  have h := into_lines_flush_and_single_blank exAcc cs2 100 rfl rfl
    (by norm_num [cs2, qAbs])
  refine ⟨h.1.trans ?_, h.2⟩
  norm_num [exAcc, cs1, cs2, qAbs, sortStable, insertStable]

/-- C6: a flushed span's bounding box has `l` the minimum and `r` the
maximum of the buffered start and end x (right-to-left text included),
`b` the buffered start y and `t = b` plus the transformed font size, hence
`l ≤ r` and `b ≤ t` (the hypothesis `0 ≤ sq _` is the nonnegativity of
`f32::sqrt` on its non-NaN range). -/
theorem flush_string_bbox (sq : ℚ → ℚ) (st : BBState)
    (hsq : 0 ≤ sq (bufTfsArg st)) (hbuf : st.buf ≠ []) :
    ∃ sp, (flushString sq st).spans = st.spans ++ [sp] ∧
      sp.bbox.l = min st.bufStartX st.bufEndX ∧
      sp.bbox.r = max st.bufStartX st.bufEndX ∧
      sp.bbox.b = st.bufStartY ∧
      sp.bbox.t = st.bufStartY + sq (bufTfsArg st) ∧
      sp.bbox.l ≤ sp.bbox.r ∧
      sp.bbox.b ≤ sp.bbox.t := by
  have hlen : st.buf.length ≠ 0 := by
    simpa [List.length_eq_zero] using hbuf
  refine ⟨⟨st.buf,
    ⟨st.bufStartY + sq (bufTfsArg st), max st.bufStartX st.bufEndX,
     st.bufStartY, min st.bufStartX st.bufEndX⟩,
    st.bufFontSize, st.currentPage⟩, ?_, rfl, rfl, rfl, rfl, min_le_max, ?_⟩
  · simp only [flushString, bufTfsArg, if_pos hlen]
  · simpa using hsq

/-- A concrete buffered state for the C6 witness: right-to-left layout with
`buf_start_x = 5 > buf_end_x = 2`. -/
def exBB : BBState :=
  { BBState.new with
    buf := ['a']
    bufStartX := 5
    bufEndX := 2
    bufStartY := 7
    bufFontSize := 3 }

/-- Witness for C6 at `exBB` with a constant square-root stub valued 3. -/
theorem flush_string_bbox_witness :
    ∃ sp, (flushString (fun _ => 3) exBB).spans = exBB.spans ++ [sp] ∧
      sp.bbox.l = min exBB.bufStartX exBB.bufEndX ∧
      sp.bbox.r = max exBB.bufStartX exBB.bufEndX ∧
      sp.bbox.b = exBB.bufStartY ∧
      sp.bbox.t = exBB.bufStartY + (fun (_ : ℚ) => (3 : ℚ)) (bufTfsArg exBB) ∧
      sp.bbox.l ≤ sp.bbox.r ∧
      sp.bbox.b ≤ sp.bbox.t :=
  flush_string_bbox (fun _ => 3) exBB (by norm_num) (by simp [exBB, BBState.new])

/-! ## Column aligner (src/src/utils.rs `detect_right_aligned_columns`)
and claims C7, C8

The source keeps clusters in a `HashMap<usize, Vec<SpanEdges>>` keyed by an
incrementing id and *iterates* it twice (the nearest-cluster scan and the
final `values()` walk).  Rust randomizes `HashMap` iteration order per
process, so the model takes the iteration order as an explicit parameter
`ord`, a function reordering the enumerated cluster list; a faithful order
is any permutation. -/

/-- An edge pair collected per span. -/
structure SpanEdges where
  leftX : ℚ
  rightX : ℚ
  deriving DecidableEq, Repr

/-- A cluster's center: the mean of its `right_x` values. -/
def clusterCenter (c : List SpanEdges) : ℚ :=
  (c.map (fun e => e.rightX)).sum / c.length

/-- Enumerate a list with ids starting at `n` (the cluster ids are the
insertion indices). -/
def enumFromN (n : Nat) : List α → List (Nat × α)
  | [] => []
  | a :: t => (n, a) :: enumFromN (n + 1) t

/-- `distance < min_distance` against the running best (`min_distance`
starts at `f32::MAX`, which every finite distance beats). -/
def betterThan (best : Option (Nat × ℚ)) (d : ℚ) : Bool :=
  match best with
  | none => true
  | some b => decide (d < b.2)

/-- The nearest-cluster scan of the assignment loop
(src/src/utils.rs:306-317): keep the closest cluster whose center is within
the threshold 8. -/
def findClusterAux (rx : ℚ) : List (Nat × List SpanEdges) → Option (Nat × ℚ) →
    Option (Nat × ℚ)
  | [], best => best
  | (i, c) :: rest, best =>
    let d := qAbs (rx - clusterCenter c)
    findClusterAux rx rest
      (if decide (d < 8) && betterThan best d then some (i, d) else best)

/-- The chosen cluster id for an edge, if any. -/
def findCluster (cs : List (Nat × List SpanEdges)) (rx : ℚ) : Option Nat :=
  (findClusterAux rx cs none).map (fun b => b.1)

/-- One step of the assignment loop (src/src/utils.rs:303-325): push the
edge onto the found cluster, or append a fresh singleton cluster. -/
def addEdge (ord : List (Nat × List SpanEdges) → List (Nat × List SpanEdges))
    (cs : List (List SpanEdges)) (e : SpanEdges) : List (List SpanEdges) :=
  match findCluster (ord (enumFromN 0 cs)) e.rightX with
  | some i => cs.set i (cs.getD i [] ++ [e])
  | none => cs ++ [[e]]

/-- Minimum of a nonempty list (the source folds from `f32::INFINITY`;
qualifying clusters are nonempty, where the two agree). -/
def listMinQ : List ℚ → ℚ
  | [] => 0
  | h :: t => t.foldl min h

/-- Maximum of a nonempty list (source folds from `f32::NEG_INFINITY`). -/
def listMaxQ : List ℚ → ℚ
  | [] => 0
  | h :: t => t.foldl max h

/-- The qualification test of a cluster (src/src/utils.rs:328-356):
at least 3 edges, right spread below 3.7, average right edge at least 200,
and left spread at least 5 when the average right edge is at least 450 and
at least 50 otherwise. -/
def clusterQualifies (c : List SpanEdges) : Bool :=
  decide (3 ≤ c.length) &&
  (let lefts := c.map (fun e => e.leftX)
   let rights := c.map (fun e => e.rightX)
   let leftVariation := listMaxQ lefts - listMinQ lefts
   let rightVariation := listMaxQ rights - listMinQ rights
   let avg := clusterCenter c
   let threshold : ℚ := if 450 ≤ avg then 5 else 50
   decide (threshold ≤ leftVariation) && decide (rightVariation < 37 / 10) &&
     decide (200 ≤ avg))

/-- The edge list of a page: every span's `(bbox.l, bbox.r)` in line
order. -/
def allEdges (lines : List (List TextSpan)) : List SpanEdges :=
  (lines.map (fun line => line.map (fun sp => SpanEdges.mk sp.bbox.l sp.bbox.r))).flatten

/-- The final cluster list after the assignment loop. -/
def finalClusters (ord : List (Nat × List SpanEdges) → List (Nat × List SpanEdges))
    (lines : List (List TextSpan)) : List (List SpanEdges) :=
  (allEdges lines).foldl (addEdge ord) []

/-- `detect_right_aligned_columns` (src/src/utils.rs:272-361): cluster the
right edges, then report the average right edge of every qualifying
cluster, in the `values()` iteration order. -/
def detectRightAlignedColumns
    (ord : List (Nat × List SpanEdges) → List (Nat × List SpanEdges))
    (lines : List (List TextSpan)) : List ℚ :=
  if (allEdges lines).isEmpty then []
  else
    (ord (enumFromN 0 (finalClusters ord lines))).filterMap
      (fun ic => if clusterQualifies ic.2 then some (clusterCenter ic.2) else none)

theorem mem_of_mem_enumFromN :
    ∀ (n : Nat) (l : List α) (i : Nat) (c : α), (i, c) ∈ enumFromN n l → c ∈ l := by
  intro n l
  induction l generalizing n with
  | nil => intro i c h; cases h
  | cons a t ih =>
    intro i c h
    rcases List.mem_cons.mp h with heq | h2
    · injection heq with h1 h2
      subst h2
      exact List.mem_cons_self _ _
    · exact List.mem_cons_of_mem a (ih (n + 1) _ _ h2)

theorem mem_enumFromN_of_mem :
    ∀ (n : Nat) (l : List α) (c : α), c ∈ l → ∃ i, (i, c) ∈ enumFromN n l := by
  intro n l
  induction l generalizing n with
  | nil => intro c h; cases h
  | cons a t ih =>
    intro c h
    rcases List.mem_cons.mp h with rfl | h
    · exact ⟨n, List.mem_cons_self _ _⟩
    · obtain ⟨i, hi⟩ := ih (n + 1) c h
      exact ⟨i, List.mem_cons_of_mem _ hi⟩

theorem findClusterAux_mem (rx : ℚ) :
    ∀ (l : List (Nat × List SpanEdges)) (best : Option (Nat × ℚ)) (i : Nat) (d : ℚ),
    findClusterAux rx l best = some (i, d) →
    best = some (i, d) ∨
      ∃ c, (i, c) ∈ l ∧ d = qAbs (rx - clusterCenter c) ∧ d < 8 := by
  intro l
  induction l with
  | nil =>
    intro best i d h
    exact Or.inl h
  | cons hd tl ih =>
    rcases hd with ⟨j, c⟩
    intro best i d h
    rw [findClusterAux] at h
    rcases ih _ i d h with h2 | ⟨c2, hc2, hd2, hlt2⟩
    · by_cases hcond :
        (decide (qAbs (rx - clusterCenter c) < 8) && betterThan best (qAbs (rx - clusterCenter c))) = true
      · rw [if_pos hcond] at h2
        injection h2 with h3
        injection h3 with h4 h5
        subst h4
        subst h5
        refine Or.inr ⟨c, List.mem_cons_self _ _, rfl, ?_⟩
        have := (Bool.and_eq_true _ _).mp hcond
        exact of_decide_eq_true this.1
      · rw [if_neg hcond] at h2
        exact Or.inl h2
    · exact Or.inr ⟨c2, List.mem_cons_of_mem _ hc2, hd2, hlt2⟩

/-- C7: under any hash iteration order that permutes the clusters, (i) an
edge is assigned to an existing cluster only when that cluster's mean
`right_x` is within 8 points of the edge's right edge, (ii) a fresh
singleton cluster is appended otherwise, and (iii) a value is reported as a
right-aligned column exactly when some final cluster has at least 3 edges,
right spread below 3.7, average right edge at least 200 and left spread at
least the 5-or-50 threshold, the value being that cluster's average right
edge. -/
theorem detect_right_aligned_columns_spec
    (ord : List (Nat × List SpanEdges) → List (Nat × List SpanEdges))
    (hord : ∀ l : List (Nat × List SpanEdges), (ord l).Perm l) :
    (∀ (cs : List (List SpanEdges)) (rx : ℚ) (i : Nat),
      findCluster (ord (enumFromN 0 cs)) rx = some i →
      ∃ c, (i, c) ∈ enumFromN 0 cs ∧ qAbs (rx - clusterCenter c) < 8) ∧
    (∀ (cs : List (List SpanEdges)) (e : SpanEdges),
      findCluster (ord (enumFromN 0 cs)) e.rightX = none →
      addEdge ord cs e = cs ++ [[e]]) ∧
    (∀ (lines : List (List TextSpan)) (p : ℚ),
      p ∈ detectRightAlignedColumns ord lines ↔
        ∃ c ∈ finalClusters ord lines, clusterQualifies c = true ∧
          p = clusterCenter c) := by
  refine ⟨?_, ?_, ?_⟩
  · intro cs rx i hfind
    rcases Option.map_eq_some'.mp hfind with ⟨⟨i2, d⟩, haux, hi⟩
    cases hi
    rcases findClusterAux_mem rx _ none i2 d haux with h | ⟨c, hc, hd2, hlt⟩
    · cases h
    · rw [hd2] at hlt
      exact ⟨c, (hord (enumFromN 0 cs)).mem_iff.mp hc, hlt⟩
  · intro cs e hnone
    simp [addEdge, hnone]
  · intro lines p
    unfold detectRightAlignedColumns
    by_cases hemp : (allEdges lines).isEmpty = true
    · have : finalClusters ord lines = [] := by
        unfold finalClusters
        rw [List.isEmpty_iff.mp hemp]
        rfl
      simp [hemp, this]
    · rw [if_neg hemp]
      constructor
      · intro hp
        have hp2 := ((hord _).filterMap _).mem_iff.mp hp
        rcases List.mem_filterMap.mp hp2 with ⟨⟨i, c⟩, hmem, hf⟩
        by_cases hq : clusterQualifies c = true
        · rw [if_pos hq] at hf
          exact ⟨c, mem_of_mem_enumFromN 0 _ i c hmem, hq, (Option.some_inj.mp hf).symm⟩
        · rw [if_neg hq] at hf
          cases hf
      · rintro ⟨c, hc, hq, rfl⟩
        obtain ⟨i, hi⟩ := mem_enumFromN_of_mem 0 _ c hc
        refine ((hord _).filterMap _).mem_iff.mpr (List.mem_filterMap.mpr ⟨(i, c), hi, ?_⟩)
        rw [if_pos hq]

/-- A span for the column examples: only the left and right edges matter. -/
def colSpan (l r : ℚ) : TextSpan := ⟨['x'], ⟨0, r, 0, l⟩, 10, 1⟩

/-- A page with two genuine right-aligned clusters (right edges 300 and
320, three spans each, wide left spread) and one stray span (right edge
310, within 16 of both cluster centers but within 8 of neither). -/
def exColLines : List (List TextSpan) :=
  [[colSpan 100 300, colSpan 200 300, colSpan 260 300,
    colSpan 110 320, colSpan 210 320, colSpan 270 320,
    colSpan 150 310]]

/-- The first right-x-300 cluster of `exColLines`. -/
def clusterA : List SpanEdges := [⟨100, 300⟩, ⟨200, 300⟩, ⟨260, 300⟩]

/-- The right-x-320 cluster of `exColLines`. -/
def clusterB : List SpanEdges := [⟨110, 320⟩, ⟨210, 320⟩, ⟨270, 320⟩]

theorem finalClusters_exCol_id :
    finalClusters (fun l => l) exColLines = [clusterA, clusterB, [⟨150, 310⟩]] := by
  norm_num [finalClusters, allEdges, exColLines, colSpan, addEdge, findCluster,
    findClusterAux, betterThan, clusterCenter, enumFromN, qAbs, List.foldl,
    List.set, List.getD, List.get?, clusterA, clusterB]

theorem detect_exCol_id :
    detectRightAlignedColumns (fun l => l) exColLines = [300, 320] := by
  rw [detectRightAlignedColumns, finalClusters_exCol_id]
  norm_num [allEdges, exColLines, colSpan, enumFromN, clusterQualifies,
    clusterCenter, listMinQ, listMaxQ, List.filterMap, clusterA, clusterB]

set_option maxRecDepth 4000 in
theorem finalClusters_exCol_rev :
    finalClusters (fun l => l.reverse) exColLines = [clusterA, clusterB, [⟨150, 310⟩]] := by
  norm_num [finalClusters, allEdges, exColLines, colSpan, addEdge, findCluster,
    findClusterAux, betterThan, clusterCenter, enumFromN, qAbs, List.foldl,
    List.set, List.getD, List.get?, clusterA, clusterB]

set_option maxRecDepth 4000 in
theorem detect_exCol_rev :
    detectRightAlignedColumns (fun l => l.reverse) exColLines = [320, 300] := by
  rw [detectRightAlignedColumns, finalClusters_exCol_rev]
  norm_num [allEdges, exColLines, colSpan, enumFromN, clusterQualifies,
    clusterCenter, listMinQ, listMaxQ, List.filterMap, clusterA, clusterB]

/-- The cluster-position search of `TextOutput::to_string_pretty`
(src/src/types.rs:292-296): the first detected position within the
alignment threshold 16 of the span's right edge. -/
def firstWithin16 (positions : List ℚ) (rx : ℚ) : Option ℚ :=
  positions.find? (fun p => decide (qAbs (rx - p) < 16))

/-- `TextSpan::x_to_col` (src/src/types.rs:235-237):
`(x / 4.0).round() as usize`. -/
def xToCol (x : ℚ) : Nat := (rustRound (x / 4)).toNat

/-- C8 (code bug): the detected column positions are emitted in the
cluster map's iteration order, which Rust randomizes per process; on
`exColLines` the insertion order yields `[300, 320]` and the reversed order
`[320, 300]`, and the pretty printer then aligns the stray right-edge-310
span to target column 75 in one run and 80 in the other, so two runs of
extraction on the same input bytes can produce different pretty output. -/
theorem detect_columns_order_dependent :
    detectRightAlignedColumns (fun l => l) exColLines = [300, 320] ∧
    detectRightAlignedColumns (fun l => l.reverse) exColLines = [320, 300] ∧
    firstWithin16 [300, 320] 310 = some 300 ∧
    firstWithin16 [320, 300] 310 = some 320 ∧
    xToCol 300 = 75 ∧
    xToCol 320 = 80 := by
  refine ⟨detect_exCol_id, detect_exCol_rev, ?_, ?_, ?_, ?_⟩
  · norm_num [firstWithin16, List.find?, qAbs]
  · norm_num [firstWithin16, List.find?, qAbs]
  · norm_num [xToCol, rustRound]
    all_goals decide
  · norm_num [xToCol, rustRound]
    all_goals decide

/-- Witness for C7: the reported position 300 comes from cluster A of
`exColLines` under the identity iteration order. -/
theorem detect_right_aligned_columns_spec_witness :
    300 ∈ detectRightAlignedColumns (fun l => l) exColLines :=
  ((detect_right_aligned_columns_spec (fun l => l)
      (fun l => List.Perm.refl l)).2.2 exColLines 300).mpr
    ⟨clusterA,
     by rw [finalClusters_exCol_id]; exact List.mem_cons_self _ _,
     by norm_num [clusterQualifies, clusterCenter, listMinQ, listMaxQ, clusterA],
     by norm_num [clusterCenter, clusterA]⟩

end PdfStrings
